import Mathlib

/-!
Verification of the session registration pipeline (`src/sessions/session.cpp`)
and the message subscriber hub (`src/message_subscriber.cpp`) of
libbitcoin-network.

The asynchronous callback cascade of `session.cpp` is embedded as
continuation-passing functions that produce the list of observable actions
(events) a single channel registration performs.  External collaborators
(the channel, the pending-nonce table, the network peer store, the
handshake protocol) complete asynchronously; their completion codes are
supplied up front in a `RegEnv` record, which makes every run a pure,
executable function of the session, the environment and the source's
control flow.
-/

/-- Error codes of the `code` values used in the sources (§7 taxonomy).
`other n` stands for any further decoder- or transport-originated code. -/
inductive ErrorCode
  | success
  | service_stopped
  | operation_failed
  | not_found
  | accept_failed
  | other (n : Nat)
deriving DecidableEq, Repr

/-- C++ `if (ec)`: a `code` tests true exactly when it is not success. -/
def isError : ErrorCode → Bool
  | ErrorCode.success => false
  | _ => true

/-- The `version` message observed on a channel after handshake:
`value` is the protocol version, `nonce` the peer's advertised nonce. -/
structure version_message where
  value : Nat
  nonce : Nat
deriving DecidableEq, Repr

/-- Session state and policy: `stopped_`, `incoming_`, `notify_` of
`session.cpp`, plus the `bc::peer_minimum_version` threshold in scope
(a library-level configuration constant, carried here as part of the
session's settings snapshot). -/
structure Session where
  stopped : Bool
  incoming : Bool
  notify : Bool
  peer_minimum_version : Nat
deriving DecidableEq, Repr

/-- Completion codes and values delivered by the external collaborators
during one channel registration:
* `randomNonce` — the value returned by `nonzero_pseudo_random()`;
* `pendStoreCode` — the completion code of `pending_.store`;
* `channelStartCode` — the code passed to `channel->start`'s callback;
* `handshakeCode` — the completion code of the `protocol_version` handshake;
* `version` — `channel->version()` after the handshake;
* `pendingNonces` — the nonces stored in `pending_` when `exists` is queried;
* `storeCode` — the completion code of `network_.store`. -/
structure RegEnv where
  randomNonce : Nat
  pendStoreCode : ErrorCode
  channelStartCode : ErrorCode
  handshakeCode : ErrorCode
  version : version_message
  pendingNonces : List Nat
  storeCode : ErrorCode
deriving DecidableEq, Repr

/-- Observable actions of the registration pipeline, in program order. -/
inductive Event
  | setNotify (b : Bool)       -- channel->set_notify(b)
  | setNonce (n : Nat)         -- channel->set_nonce(n)
  | pendStore                  -- pending_.store(channel, ...)
  | channelStart               -- channel->start(...)
  | attachHandshake            -- attach<protocol_version>(channel)->start(...)
  | pendExistsQuery (n : Nat)  -- pending_.exists(n, ...)
  | logDebug                   -- log::debug(LOG_NETWORK) << ...
  | networkStore               -- network_.store(channel, ...)
  | channelStop (c : ErrorCode)    -- channel->stop(c)
  | subscribeStop              -- channel->subscribe_stop(handle_stopped)
  | startedCb (c : ErrorCode)      -- invocation of the caller's handle_started
  | pendRemove                 -- pending_.remove(channel, ...)
  | networkRemove              -- network_.remove(channel, ...)
  | stoppedCb (c : ErrorCode)      -- invocation of the caller's handle_stopped
deriving DecidableEq, Repr

/-- `session::handle_start`: stop the channel on error, otherwise arm the
stop subscription; then signal the caller.  This is the end of the
registration sequence. -/
def handle_start (c : ErrorCode) : List Event :=
  (if isError c then [Event.channelStop c] else [Event.subscribeStop]) ++
    [Event.startedCb c]

/-- `session::handle_is_pending`: reject a loopback, reject a version below
`bc::peer_minimum_version`, otherwise hand the channel to the peer store
with `handle_started` as the store's completion callback. -/
def handle_is_pending (s : Session) (env : RegEnv) (pending : Bool)
    (handle_started : ErrorCode → List Event) : List Event :=
  if pending then
    Event.logDebug :: handle_started ErrorCode.accept_failed
  else if env.version.value < s.peer_minimum_version then
    Event.logDebug :: handle_started ErrorCode.accept_failed
  else
    Event.networkStore :: handle_started env.storeCode

/-- `session::handle_handshake`: propagate a handshake failure; otherwise
run the loopback test (incoming channels only) against the pending table,
keyed by the remote peer's advertised version nonce. -/
def handle_handshake (s : Session) (env : RegEnv)
    (handle_started : ErrorCode → List Event) : List Event :=
  if isError env.handshakeCode then
    Event.logDebug :: handle_started env.handshakeCode
  else if s.incoming then
    Event.pendExistsQuery env.version.nonce ::
      handle_is_pending s env (env.pendingNonces.contains env.version.nonce)
        handle_started
  else
    handle_is_pending s env false handle_started

/-- `session::handle_channel_start`: attach the `protocol_version` protocol
and start the handshake.  As in the source, the code `ec` received from
`channel->start` is never inspected. -/
def handle_channel_start (s : Session) (env : RegEnv) (ec : ErrorCode)
    (handle_started : ErrorCode → List Event) : List Event :=
  Event.attachHandshake :: handle_handshake s env handle_started

/-- `session::handle_pend`: propagate a pending-store failure, otherwise
start the channel's I/O. -/
def handle_pend (s : Session) (env : RegEnv) (ec : ErrorCode)
    (handle_started : ErrorCode → List Event) : List Event :=
  if isError ec then handle_started ec
  else
    Event.channelStart ::
      handle_channel_start s env env.channelStartCode handle_started

/-- `session::do_unpend`: reset the channel nonce to 0, remove the channel
from the pending table, then forward the unchanged code. -/
def do_unpend (ec : ErrorCode)
    (handle_started : ErrorCode → List Event) : List Event :=
  Event.setNonce 0 :: Event.pendRemove :: handle_started ec

/-- `session::register_channel`: fail fast when stopped; inbound channels
run the shared sequence directly; outbound channels get the notify flag and
a fresh nonzero nonce, are pended, and unpend before signaling. -/
def register_channel (s : Session) (env : RegEnv) : List Event :=
  if s.stopped then handle_start ErrorCode.service_stopped
  else if s.incoming then
    handle_pend s env ErrorCode.success handle_start
  else
    Event.setNotify s.notify :: Event.setNonce env.randomNonce ::
      Event.pendStore ::
        handle_pend s env env.pendStoreCode (fun c => do_unpend c handle_start)

/-- `session::do_remove`: the stop handler armed by `register_channel`.
It initiates removal from the network peer store, then invokes the caller's
`handle_stopped` with the unchanged code. -/
def do_remove (ec : ErrorCode) : List Event :=
  [Event.networkRemove, Event.stoppedCb ec]

/-- `session::handle_remove`: the completion of `network_.remove` only logs
a failure at debug level. -/
def handle_remove (ec : ErrorCode) : List Event :=
  if isError ec then [Event.logDebug] else []

/-- `session::handle_unpend`: the completion of `pending_.remove` only logs
a failure at debug level. -/
def handle_unpend (ec : ErrorCode) : List Event :=
  if isError ec then [Event.logDebug] else []

/-- Observable actions of `session::start`. -/
inductive SEvent
  | subscribeStop              -- network_.subscribe_stop(do_stop_session)
  | handler (c : ErrorCode)    -- invocation of the caller's handler
deriving DecidableEq, Repr

/-- `session::do_stop_session`: the subscribed stop callback sets the
stopped flag, whatever the delivered code and previous flag were. -/
def do_stop_session (ec : ErrorCode) (stopped : Bool) : Bool :=
  true

/-- `session::start`: when not stopped, signal `operation_failed` and leave
the state unchanged; otherwise clear the stopped flag, subscribe the stop
callback on the network facade, then signal success.  The result is the
new stopped flag paired with the actions in program order. -/
def session_start (stopped : Bool) : Bool × List SEvent :=
  if !stopped then (stopped, [SEvent.handler ErrorCode.operation_failed])
  else (false, [SEvent.subscribeStop, SEvent.handler ErrorCode.success])

/-! ## Trace observations -/

/-- The codes delivered to the caller's `handle_started`, in order. -/
def startedCodes (t : List Event) : List ErrorCode :=
  t.filterMap fun e =>
    match e with
    | Event.startedCb c => some c
    | _ => none

/-- Events the mid-pipeline stages (channel start, handshake, pending
query, peer store) may emit. -/
def midEvent : Event → Bool
  | Event.channelStart => true
  | Event.attachHandshake => true
  | Event.logDebug => true
  | Event.pendExistsQuery _ => true
  | Event.networkStore => true
  | _ => false

/-- Events allowed before the terminal `handle_start` step: anything except
stopping the channel, arming the stop subscription, or signaling either
caller callback. -/
def preEvent : Event → Bool
  | Event.channelStop _ => false
  | Event.subscribeStop => false
  | Event.startedCb _ => false
  | Event.stoppedCb _ => false
  | _ => true

/-- Events that do not write the channel nonce. -/
def noNonceEvent : Event → Bool
  | Event.setNonce _ => false
  | _ => true

/-- Events that do not change pending-table membership. -/
def noPendEvent : Event → Bool
  | Event.pendStore => false
  | Event.pendRemove => false
  | _ => true

/-- The channel nonce after one more event (channels start with nonce 0). -/
def nonceStep (n : Nat) (e : Event) : Nat :=
  match e with
  | Event.setNonce m => m
  | _ => n

/-- Pending-table membership of the channel after one more event. -/
def pendStep (b : Bool) (e : Event) : Bool :=
  match e with
  | Event.pendStore => true
  | Event.pendRemove => false
  | _ => b

/-- The channel nonce after the first `i` events of a trace. -/
def nonceAt (t : List Event) (i : Nat) : Nat :=
  (t.take i).foldl nonceStep 0

/-- Whether the channel is in the pending table after the first `i` events. -/
def inPendAt (t : List Event) (i : Nat) : Bool :=
  (t.take i).foldl pendStep false

/-! ## Message subscriber hub (`src/message_subscriber.cpp`) -/

/-- The `message_type` wire-kind enumeration of the hub.  A C++ scoped enum
may hold integer values outside its declared enumerators (caught by the
`default:` case of `load`); `invalid n` stands for any such value. -/
inductive message_type
  | address
  | alert
  | block
  | filter_add
  | filter_clear
  | filter_load
  | get_address
  | get_blocks
  | get_data
  | get_headers
  | headers
  | inventory
  | memory_pool
  | merkle_block
  | not_found
  | ping
  | pong
  | reject
  | transaction
  | verack
  | version
  | unknown
  | invalid (n : Nat)
deriving DecidableEq, Repr

/-- The non-sentinel kinds: those with a subscriber in the hub. -/
def realKind : message_type → Bool
  | message_type.unknown => false
  | message_type.invalid _ => false
  | _ => true

/-- A byte stream, as seen by the external decoders. -/
abbrev ByteStream := List Nat

/-- Observable actions of the hub.  `hubRelay k c` records that kind `k`'s
subscriber was relayed a pair whose code is `c` (the payload value itself
belongs to the external codec and is not observed here). -/
inductive HubEvent
  | mkSub (k : message_type)     -- INITIALIZE_SUBSCRIBER(pool, k)
  | hubRelay (k : message_type) (c : ErrorCode)  -- k_subscriber_->relay(c, _)
  | subStart (k : message_type)  -- k_subscriber_->start()
  | subStop (k : message_type)   -- k_subscriber_->stop()
deriving DecidableEq, Repr

namespace message_subscriber

/-- Modelled from the spec: the `relay<Message>(stream, subscriber)`
template of `message_subscriber.hpp`, which is not under `src/`.  Per the
spec (§4.B), it decodes the stream and relays the decode result to the
kind's subscriber — the value on success, the decode error code on
failure — returning the decoder's code.  `r` is the decoder's result for
this kind and stream. -/
def relay (k : message_type) (r : ErrorCode) : ErrorCode × List HubEvent :=
  (r, [HubEvent.hubRelay k r])

/-- Modelled from the spec: the `handle<Message>` template of
`message_subscriber.hpp` (used for the `block` kind), which is not under
`src/`.  The spec (§4.B, §9) treats its observable behavior as identical
to `relay`: the subscriber receives the decode result and the decoder's
code is returned. -/
def handle (k : message_type) (r : ErrorCode) : ErrorCode × List HubEvent :=
  (r, [HubEvent.hubRelay k r])

/-- `message_subscriber::load`: dispatch on the kind and decode-and-relay;
`unknown` and any unrecognized kind return `not_found` with no action.
`dec` is the external decoder table, giving the decode code for a kind and
stream. -/
def load (dec : message_type → ByteStream → ErrorCode) (t : message_type)
    (s : ByteStream) : ErrorCode × List HubEvent :=
  match t with
  | message_type.address => relay message_type.address (dec message_type.address s)
  | message_type.alert => relay message_type.alert (dec message_type.alert s)
  | message_type.block => handle message_type.block (dec message_type.block s)
  | message_type.filter_add => relay message_type.filter_add (dec message_type.filter_add s)
  | message_type.filter_clear => relay message_type.filter_clear (dec message_type.filter_clear s)
  | message_type.filter_load => relay message_type.filter_load (dec message_type.filter_load s)
  | message_type.get_address => relay message_type.get_address (dec message_type.get_address s)
  | message_type.get_blocks => relay message_type.get_blocks (dec message_type.get_blocks s)
  | message_type.get_data => relay message_type.get_data (dec message_type.get_data s)
  | message_type.get_headers => relay message_type.get_headers (dec message_type.get_headers s)
  | message_type.headers => relay message_type.headers (dec message_type.headers s)
  | message_type.inventory => relay message_type.inventory (dec message_type.inventory s)
  | message_type.memory_pool => relay message_type.memory_pool (dec message_type.memory_pool s)
  | message_type.merkle_block => relay message_type.merkle_block (dec message_type.merkle_block s)
  | message_type.not_found => relay message_type.not_found (dec message_type.not_found s)
  | message_type.ping => relay message_type.ping (dec message_type.ping s)
  | message_type.pong => relay message_type.pong (dec message_type.pong s)
  | message_type.reject => relay message_type.reject (dec message_type.reject s)
  | message_type.transaction => relay message_type.transaction (dec message_type.transaction s)
  | message_type.verack => relay message_type.verack (dec message_type.verack s)
  | message_type.version => relay message_type.version (dec message_type.version s)
  | message_type.unknown => (ErrorCode.not_found, [])
  | message_type.invalid _ => (ErrorCode.not_found, [])

/-- `message_subscriber::broadcast`: relay `(ec, nullptr)` to the
subscriber of every one of the 21 kinds, in construction order. -/
def broadcast (ec : ErrorCode) : List HubEvent :=
  [HubEvent.hubRelay message_type.address ec,
   HubEvent.hubRelay message_type.alert ec,
   HubEvent.hubRelay message_type.block ec,
   HubEvent.hubRelay message_type.filter_add ec,
   HubEvent.hubRelay message_type.filter_clear ec,
   HubEvent.hubRelay message_type.filter_load ec,
   HubEvent.hubRelay message_type.get_address ec,
   HubEvent.hubRelay message_type.get_blocks ec,
   HubEvent.hubRelay message_type.get_data ec,
   HubEvent.hubRelay message_type.get_headers ec,
   HubEvent.hubRelay message_type.headers ec,
   HubEvent.hubRelay message_type.inventory ec,
   HubEvent.hubRelay message_type.memory_pool ec,
   HubEvent.hubRelay message_type.merkle_block ec,
   HubEvent.hubRelay message_type.not_found ec,
   HubEvent.hubRelay message_type.ping ec,
   HubEvent.hubRelay message_type.pong ec,
   HubEvent.hubRelay message_type.reject ec,
   HubEvent.hubRelay message_type.transaction ec,
   HubEvent.hubRelay message_type.verack ec,
   HubEvent.hubRelay message_type.version ec]

/-- `message_subscriber::message_subscriber`: the constructor creates one
subscriber per kind, in declaration order. -/
def construct : List HubEvent :=
  [HubEvent.mkSub message_type.address,
   HubEvent.mkSub message_type.alert,
   HubEvent.mkSub message_type.block,
   HubEvent.mkSub message_type.filter_add,
   HubEvent.mkSub message_type.filter_clear,
   HubEvent.mkSub message_type.filter_load,
   HubEvent.mkSub message_type.get_address,
   HubEvent.mkSub message_type.get_blocks,
   HubEvent.mkSub message_type.get_data,
   HubEvent.mkSub message_type.get_headers,
   HubEvent.mkSub message_type.headers,
   HubEvent.mkSub message_type.inventory,
   HubEvent.mkSub message_type.memory_pool,
   HubEvent.mkSub message_type.merkle_block,
   HubEvent.mkSub message_type.not_found,
   HubEvent.mkSub message_type.ping,
   HubEvent.mkSub message_type.pong,
   HubEvent.mkSub message_type.reject,
   HubEvent.mkSub message_type.transaction,
   HubEvent.mkSub message_type.verack,
   HubEvent.mkSub message_type.version]

/-- `message_subscriber::start`: fan out `start()` to every subscriber. -/
def start : List HubEvent :=
  [HubEvent.subStart message_type.address,
   HubEvent.subStart message_type.alert,
   HubEvent.subStart message_type.block,
   HubEvent.subStart message_type.filter_add,
   HubEvent.subStart message_type.filter_clear,
   HubEvent.subStart message_type.filter_load,
   HubEvent.subStart message_type.get_address,
   HubEvent.subStart message_type.get_blocks,
   HubEvent.subStart message_type.get_data,
   HubEvent.subStart message_type.get_headers,
   HubEvent.subStart message_type.headers,
   HubEvent.subStart message_type.inventory,
   HubEvent.subStart message_type.memory_pool,
   HubEvent.subStart message_type.merkle_block,
   HubEvent.subStart message_type.not_found,
   HubEvent.subStart message_type.ping,
   HubEvent.subStart message_type.pong,
   HubEvent.subStart message_type.reject,
   HubEvent.subStart message_type.transaction,
   HubEvent.subStart message_type.verack,
   HubEvent.subStart message_type.version]

/-- `message_subscriber::stop`: fan out `stop()` to every subscriber. -/
def stop : List HubEvent :=
  [HubEvent.subStop message_type.address,
   HubEvent.subStop message_type.alert,
   HubEvent.subStop message_type.block,
   HubEvent.subStop message_type.filter_add,
   HubEvent.subStop message_type.filter_clear,
   HubEvent.subStop message_type.filter_load,
   HubEvent.subStop message_type.get_address,
   HubEvent.subStop message_type.get_blocks,
   HubEvent.subStop message_type.get_data,
   HubEvent.subStop message_type.get_headers,
   HubEvent.subStop message_type.headers,
   HubEvent.subStop message_type.inventory,
   HubEvent.subStop message_type.memory_pool,
   HubEvent.subStop message_type.merkle_block,
   HubEvent.subStop message_type.not_found,
   HubEvent.subStop message_type.ping,
   HubEvent.subStop message_type.pong,
   HubEvent.subStop message_type.reject,
   HubEvent.subStop message_type.transaction,
   HubEvent.subStop message_type.verack,
   HubEvent.subStop message_type.version]

end message_subscriber

/-- Modelled from the spec: `subscriber::relay` of the external subscriber
template (not under `src/`) drains the current waiter list and invokes
every waiter with the given `(code, value)` pair (§3 invariant (c), §4.A).
Waiters are identified by numbers; `w` maps each kind to its outstanding
waiters.  A `hubRelay k c` action therefore invokes each waiter of `k`
with code `c`. -/
def relayInvocations (w : message_type → List Nat) (e : HubEvent) :
    List (message_type × Nat × ErrorCode) :=
  match e with
  | HubEvent.hubRelay k c => (w k).map fun id => (k, id, c)
  | _ => []

/-- All waiter invocations performed by a list of hub actions. -/
def traceInvocations (w : message_type → List Nat) :
    List HubEvent → List (message_type × Nat × ErrorCode)
  | [] => []
  | e :: r => relayInvocations w e ++ traceInvocations w r

/-! ## Concrete sessions and environments used to evaluate the model -/

/-- An inbound (accept-side) running session, minimum peer version 70001. -/
def inboundSession : Session :=
  { stopped := false, incoming := true, notify := false,
    peer_minimum_version := 70001 }

/-- An outbound (dial-side) running session of a persistent policy. -/
def outboundSession : Session :=
  { stopped := false, incoming := false, notify := true,
    peer_minimum_version := 70001 }

/-- A session whose stop callback has fired. -/
def stoppedSession : Session :=
  { stopped := true, incoming := true, notify := false,
    peer_minimum_version := 70001 }

/-- A run whose handshake succeeds and whose remote peer advertises the
nonce `0xDEADBEEF`, which is currently stored in the pending table. -/
def loopbackEnv : RegEnv :=
  { randomNonce := 7, pendStoreCode := ErrorCode.success,
    channelStartCode := ErrorCode.success,
    handshakeCode := ErrorCode.success,
    version := { value := 70001, nonce := 3735928559 },
    pendingNonces := [3735928559], storeCode := ErrorCode.success }

/-- A run whose channel start callback delivers an error while every later
stage succeeds. -/
def startFailEnv : RegEnv :=
  { randomNonce := 7, pendStoreCode := ErrorCode.success,
    channelStartCode := ErrorCode.operation_failed,
    handshakeCode := ErrorCode.success,
    version := { value := 70001, nonce := 1 },
    pendingNonces := [], storeCode := ErrorCode.success }

/-- A fully successful run with no pending-nonce collision. -/
def cleanEnv : RegEnv :=
  { randomNonce := 7, pendStoreCode := ErrorCode.success,
    channelStartCode := ErrorCode.success,
    handshakeCode := ErrorCode.success,
    version := { value := 70001, nonce := 1 },
    pendingNonces := [], storeCode := ErrorCode.success }

/-- A hub waiter assignment with one waiter (number 5) on every kind. -/
def oneWaiter : message_type → List Nat := fun _ => [5]

/-! ## Helper lemmas -/

lemma all_imp {f g : Event → Bool} (h : ∀ e, f e = true → g e = true)
    (l : List Event) (hl : l.all f = true) : l.all g = true := by
  rw [List.all_eq_true] at hl ⊢
  intro x hx
  exact h x (hl x hx)

lemma mid_pre (e : Event) (h : midEvent e = true) : preEvent e = true := by
  cases e <;> simp_all [midEvent, preEvent]

lemma mid_noNonce (e : Event) (h : midEvent e = true) : noNonceEvent e = true := by
  cases e <;> simp_all [midEvent, noNonceEvent]

lemma mid_noPend (e : Event) (h : midEvent e = true) : noPendEvent e = true := by
  cases e <;> simp_all [midEvent, noPendEvent]

lemma handle_start_all_noNonce (c : ErrorCode) :
    (handle_start c).all noNonceEvent = true := by
  cases hc : isError c <;> simp [handle_start, hc, noNonceEvent]

lemma handle_start_all_noPend (c : ErrorCode) :
    (handle_start c).all noPendEvent = true := by
  cases hc : isError c <;> simp [handle_start, hc, noPendEvent]

lemma startedCodes_handle_start (c : ErrorCode) :
    startedCodes (handle_start c) = [c] := by
  cases hc : isError c <;> simp [handle_start, hc, startedCodes]

lemma startedCodes_append (l m : List Event) :
    startedCodes (l ++ m) = startedCodes l ++ startedCodes m := by
  simp [startedCodes]

lemma startedCodes_of_all_mid (p : List Event) (h : p.all midEvent = true) :
    startedCodes p = [] := by
  induction p with
  | nil => rfl
  | cons a l ih =>
      rw [List.all_cons, Bool.and_eq_true] at h
      obtain ⟨ha, hl⟩ := h
      cases a <;> simp_all [midEvent, startedCodes]

lemma foldl_nonceStep_const (m : List Event) (init : Nat)
    (h : m.all noNonceEvent = true) : m.foldl nonceStep init = init := by
  induction m generalizing init with
  | nil => rfl
  | cons a l ih =>
      rw [List.all_cons, Bool.and_eq_true] at h
      obtain ⟨ha, hl⟩ := h
      have hstep : nonceStep init a = init := by
        cases a <;> simp_all [noNonceEvent, nonceStep]
      rw [List.foldl_cons, hstep, ih init hl]

lemma foldl_pendStep_const (m : List Event) (init : Bool)
    (h : m.all noPendEvent = true) : m.foldl pendStep init = init := by
  induction m generalizing init with
  | nil => rfl
  | cons a l ih =>
      rw [List.all_cons, Bool.and_eq_true] at h
      obtain ⟨ha, hl⟩ := h
      have hstep : pendStep init a = init := by
        cases a <;> simp_all [noPendEvent, pendStep]
      rw [List.foldl_cons, hstep, ih init hl]

lemma all_take {f : Event → Bool} (l : List Event) (n : Nat)
    (h : l.all f = true) : (l.take n).all f = true := by
  rw [List.all_eq_true] at h ⊢
  intro x hx
  exact h x (List.take_subset n l hx)

/-! ## Shape of the registration pipeline

Every stage of the shared sequence produces a list of mid-pipeline actions
followed by exactly one invocation of its continuation. -/

lemma handle_is_pending_shape (s : Session) (env : RegEnv) (b : Bool)
    (k : ErrorCode → List Event) :
    ∃ p c, handle_is_pending s env b k = p ++ k c ∧ p.all midEvent = true := by
  cases b with
  | true =>
      exact ⟨[Event.logDebug], ErrorCode.accept_failed,
        by simp [handle_is_pending], by simp [midEvent]⟩
  | false =>
      by_cases hv : env.version.value < s.peer_minimum_version
      · exact ⟨[Event.logDebug], ErrorCode.accept_failed,
          by simp [handle_is_pending, hv], by simp [midEvent]⟩
      · exact ⟨[Event.networkStore], env.storeCode,
          by simp [handle_is_pending, hv], by simp [midEvent]⟩

lemma handle_handshake_shape (s : Session) (env : RegEnv)
    (k : ErrorCode → List Event) :
    ∃ p c, handle_handshake s env k = p ++ k c ∧ p.all midEvent = true := by
  cases he : isError env.handshakeCode with
  | true =>
      exact ⟨[Event.logDebug], env.handshakeCode,
        by simp [handle_handshake, he], by simp [midEvent]⟩
  | false =>
      cases hin : s.incoming with
      | true =>
          obtain ⟨p, c, h1, h2⟩ := handle_is_pending_shape s env
            (decide (env.version.nonce ∈ env.pendingNonces)) k
          exact ⟨Event.pendExistsQuery env.version.nonce :: p, c,
            by simp [handle_handshake, he, hin, h1],
            by simp [midEvent, h2]⟩
      | false =>
          obtain ⟨p, c, h1, h2⟩ := handle_is_pending_shape s env false k
          exact ⟨p, c, by simp [handle_handshake, he, hin, h1], h2⟩

lemma handle_pend_shape (s : Session) (env : RegEnv) (ec : ErrorCode)
    (k : ErrorCode → List Event) :
    ∃ p c, handle_pend s env ec k = p ++ k c ∧ p.all midEvent = true := by
  cases hec : isError ec with
  | true => exact ⟨[], ec, by simp [handle_pend, hec], by simp⟩
  | false =>
      obtain ⟨p, c, h1, h2⟩ := handle_handshake_shape s env k
      exact ⟨Event.channelStart :: Event.attachHandshake :: p, c,
        by simp [handle_pend, hec, handle_channel_start, h1],
        by simp [midEvent, h2]⟩

lemma register_channel_shape (s : Session) (env : RegEnv) :
    ∃ p c, register_channel s env = p ++ handle_start c ∧
      p.all preEvent = true := by
  cases hst : s.stopped with
  | true =>
      exact ⟨[], ErrorCode.service_stopped,
        by simp [register_channel, hst], by simp⟩
  | false =>
      cases hin : s.incoming with
      | true =>
          obtain ⟨p, c, h1, h2⟩ :=
            handle_pend_shape s env ErrorCode.success handle_start
          exact ⟨p, c, by simp [register_channel, hst, hin, h1],
            all_imp mid_pre p h2⟩
      | false =>
          obtain ⟨p, c, h1, h2⟩ := handle_pend_shape s env env.pendStoreCode
            (fun c => do_unpend c handle_start)
          refine ⟨Event.setNotify s.notify :: Event.setNonce env.randomNonce ::
            Event.pendStore :: (p ++ [Event.setNonce 0, Event.pendRemove]), c,
            ?_, ?_⟩
          · have h3 : register_channel s env =
                Event.setNotify s.notify :: Event.setNonce env.randomNonce ::
                  Event.pendStore :: (p ++ do_unpend c handle_start) := by
              rw [register_channel, if_neg (by simp [hst]),
                if_neg (by simp [hin]), h1]
            rw [h3, do_unpend]
            simp
          · have hp := all_imp mid_pre p h2
            simp [List.all_cons, List.all_append, preEvent, hp]

/-! ## Claim theorems -/

/-- C5: `session::start(handler)` — when the session is not stopped the
handler is invoked synchronously with `operation_failed` and the state is
unchanged; otherwise the stopped flag is cleared and the stop callback
(which sets the flag back to true) is subscribed on the network facade
before the handler is invoked with success. -/
theorem C5_session_start_idle_precondition :
    session_start false = (false, [SEvent.handler ErrorCode.operation_failed]) ∧
    session_start true =
      (false, [SEvent.subscribeStop, SEvent.handler ErrorCode.success]) ∧
    (∀ (c : ErrorCode) (b : Bool), do_stop_session c b = true) :=
  ⟨rfl, rfl, fun _ _ => rfl⟩

/-- C8: `message_subscriber::load` returns `not_found` for the `unknown`
kind and for any value outside the recognized enumeration, relaying to no
subscriber and performing no other action. -/
theorem C8_load_unknown_not_found
    (dec : message_type → ByteStream → ErrorCode) (s : ByteStream) :
    message_subscriber.load dec message_type.unknown s =
      (ErrorCode.not_found, []) ∧
    (∀ n, message_subscriber.load dec (message_type.invalid n) s =
      (ErrorCode.not_found, [])) :=
  ⟨rfl, fun _ => rfl⟩

/-- C10: the stop handler armed by `register_channel` (`session::do_remove`)
first initiates removal from the network peer store and then invokes the
caller's `stopped_cb` with the unchanged code; the removal's own completion
(`session::handle_remove`) logs a failure at debug level and never signals
`stopped_cb`. -/
theorem C10_stop_event_remove_then_callback (ec rc : ErrorCode) :
    do_remove ec = [Event.networkRemove, Event.stoppedCb ec] ∧
    (Event.logDebug ∈ handle_remove rc ↔ isError rc = true) ∧
    (∀ c, Event.stoppedCb c ∉ handle_remove rc) := by
  refine ⟨rfl, ?_, ?_⟩
  · cases hrc : isError rc <;> simp [handle_remove, hrc]
  · intro c
    cases hrc : isError rc <;> simp [handle_remove, hrc]

/-- C2 (code behavior at the failing input): when the channel's start
callback fires with `operation_failed` on a running inbound session whose
later stages succeed, the handshake protocol is still attached and the
terminal code delivered to `started_cb` is `success`, not the start error;
indeed `session::handle_channel_start` never inspects the code it
receives. -/
theorem C2_channel_start_error_dropped :
    startFailEnv.channelStartCode = ErrorCode.operation_failed ∧
    Event.attachHandshake ∈ register_channel inboundSession startFailEnv ∧
    startedCodes (register_channel inboundSession startFailEnv) =
      [ErrorCode.success] ∧
    (∀ (s : Session) (env : RegEnv) (ec : ErrorCode)
      (k : ErrorCode → List Event),
      handle_channel_start s env ec k =
        handle_channel_start s env ErrorCode.success k) :=
  ⟨rfl, by decide, by decide, fun _ _ _ _ => rfl⟩

/-- C4: every registration ends in the terminal step: a prefix that never
stops the channel, arms the stop subscription, or signals either callback,
followed — on success — by arming `stopped_cb` and then `started_cb(success)`,
or — on failure — by `channel.stop(error)` and then `started_cb(error)`. -/
theorem C4_terminal_step_discipline (s : Session) (env : RegEnv) :
    ∃ p c, register_channel s env =
        p ++ ((if c = ErrorCode.success then [Event.subscribeStop]
               else [Event.channelStop c]) ++ [Event.startedCb c]) ∧
      p.all preEvent = true := by
  obtain ⟨p, c, h1, h2⟩ := register_channel_shape s env
  refine ⟨p, c, ?_, h2⟩
  rw [h1, handle_start]
  cases c <;> simp [isError]

/-- C6: registering a channel on a stopped session signals `started_cb`
exactly once with `service_stopped`; the channel's I/O is never started, no
pending-table insertion happens, and `stopped_cb` is never armed. -/
theorem C6_register_on_stopped_session (s : Session) (env : RegEnv)
    (h : s.stopped = true) :
    register_channel s env =
      [Event.channelStop ErrorCode.service_stopped,
       Event.startedCb ErrorCode.service_stopped] ∧
    startedCodes (register_channel s env) = [ErrorCode.service_stopped] ∧
    Event.channelStart ∉ register_channel s env ∧
    Event.pendStore ∉ register_channel s env ∧
    Event.subscribeStop ∉ register_channel s env := by
  have hT : register_channel s env =
      [Event.channelStop ErrorCode.service_stopped,
       Event.startedCb ErrorCode.service_stopped] := by
    simp [register_channel, h, handle_start, isError]
  refine ⟨hT, ?_, ?_, ?_, ?_⟩ <;> simp [hT, startedCodes]

theorem C6_register_on_stopped_session_witness :
    stoppedSession.stopped = true ∧
    (register_channel stoppedSession cleanEnv =
      [Event.channelStop ErrorCode.service_stopped,
       Event.startedCb ErrorCode.service_stopped] ∧
    startedCodes (register_channel stoppedSession cleanEnv) =
      [ErrorCode.service_stopped] ∧
    Event.channelStart ∉ register_channel stoppedSession cleanEnv ∧
    Event.pendStore ∉ register_channel stoppedSession cleanEnv ∧
    Event.subscribeStop ∉ register_channel stoppedSession cleanEnv) :=
  ⟨rfl, C6_register_on_stopped_session stoppedSession cleanEnv rfl⟩

lemma handle_pend_no_query (s : Session) (env : RegEnv) (ec : ErrorCode)
    (k : ErrorCode → List Event) (hout : s.incoming = false) (n : Nat)
    (hk : ∀ c, Event.pendExistsQuery n ∉ k c) :
    Event.pendExistsQuery n ∉ handle_pend s env ec k := by
  by_cases hec : isError ec = true
  · simp [handle_pend, hec, hk ec]
  · rw [Bool.not_eq_true] at hec
    by_cases hhs : isError env.handshakeCode = true
    · simp [handle_pend, hec, handle_channel_start, handle_handshake, hhs,
        hk env.handshakeCode]
    · rw [Bool.not_eq_true] at hhs
      by_cases hv : env.version.value < s.peer_minimum_version
      · simp [handle_pend, hec, handle_channel_start, handle_handshake, hhs,
          hout, handle_is_pending, hv, hk ErrorCode.accept_failed]
      · simp [handle_pend, hec, handle_channel_start, handle_handshake, hhs,
          hout, handle_is_pending, hv, hk env.storeCode]

lemma outbound_no_exists_query (s : Session) (env : RegEnv)
    (hout : s.incoming = false) (n : Nat) :
    Event.pendExistsQuery n ∉ register_channel s env := by
  have hks : ∀ c, Event.pendExistsQuery n ∉ handle_start c := by
    intro c
    cases hc : isError c <;> simp [handle_start, hc]
  cases hst : s.stopped with
  | true => simp [register_channel, hst, hks ErrorCode.service_stopped]
  | false =>
      have hku : ∀ c, Event.pendExistsQuery n ∉ do_unpend c handle_start := by
        intro c
        simp [do_unpend, hks c]
      have hmain := handle_pend_no_query s env env.pendStoreCode
        (fun c => do_unpend c handle_start) hout n hku
      simp [register_channel, hst, hout, hmain]

/-- C1: on an inbound running session whose handshake succeeds, the pending
table is queried with the remote peer's advertised version nonce; when that
nonce is currently stored, `started_cb` is signaled with `accept_failed`,
the channel is stopped, and the peer store is never called.  On outbound
sessions the pending-table query never happens. -/
theorem C1_inbound_loopback_rejected (s : Session) (env : RegEnv)
    (hin : s.incoming = true) (hrun : s.stopped = false)
    (hhs : env.handshakeCode = ErrorCode.success)
    (hmem : env.pendingNonces.contains env.version.nonce = true) :
    Event.pendExistsQuery env.version.nonce ∈ register_channel s env ∧
    startedCodes (register_channel s env) = [ErrorCode.accept_failed] ∧
    Event.channelStop ErrorCode.accept_failed ∈ register_channel s env ∧
    Event.networkStore ∉ register_channel s env ∧
    (∀ (s2 : Session) (env2 : RegEnv), s2.incoming = false →
      ∀ n, Event.pendExistsQuery n ∉ register_channel s2 env2) := by
  have hmem2 : env.version.nonce ∈ env.pendingNonces := by simpa using hmem
  have hT : register_channel s env =
      [Event.channelStart, Event.attachHandshake,
       Event.pendExistsQuery env.version.nonce, Event.logDebug,
       Event.channelStop ErrorCode.accept_failed,
       Event.startedCb ErrorCode.accept_failed] := by
    simp [register_channel, hrun, hin, handle_pend, isError,
      handle_channel_start, handle_handshake, hhs, handle_is_pending,
      hmem2, handle_start]
  refine ⟨?_, ?_, ?_, ?_, fun s2 env2 hout n =>
    outbound_no_exists_query s2 env2 hout n⟩ <;> simp [hT, startedCodes]

theorem C1_inbound_loopback_rejected_witness :
    inboundSession.incoming = true ∧ inboundSession.stopped = false ∧
    loopbackEnv.handshakeCode = ErrorCode.success ∧
    loopbackEnv.pendingNonces.contains loopbackEnv.version.nonce = true ∧
    (Event.pendExistsQuery loopbackEnv.version.nonce ∈
        register_channel inboundSession loopbackEnv ∧
    startedCodes (register_channel inboundSession loopbackEnv) =
      [ErrorCode.accept_failed] ∧
    Event.channelStop ErrorCode.accept_failed ∈
      register_channel inboundSession loopbackEnv ∧
    Event.networkStore ∉ register_channel inboundSession loopbackEnv ∧
    (∀ (s2 : Session) (env2 : RegEnv), s2.incoming = false →
      ∀ n, Event.pendExistsQuery n ∉ register_channel s2 env2)) :=
  ⟨rfl, rfl, rfl, by decide,
    C1_inbound_loopback_rejected inboundSession loopbackEnv rfl rfl rfl
      (by decide)⟩

/-- C7: on an inbound running session whose handshake succeeds without a
loopback, a version value below the session's minimum threshold yields
`started_cb(accept_failed)` with no peer-store call; otherwise the channel
is handed to the peer store and the code it delivers to its completion
callback is the code `started_cb` receives. -/
theorem C7_minimum_version_gate (s : Session) (env : RegEnv)
    (hin : s.incoming = true) (hrun : s.stopped = false)
    (hhs : env.handshakeCode = ErrorCode.success)
    (hnl : env.pendingNonces.contains env.version.nonce = false) :
    (env.version.value < s.peer_minimum_version →
      startedCodes (register_channel s env) = [ErrorCode.accept_failed] ∧
      Event.networkStore ∉ register_channel s env) ∧
    (¬ env.version.value < s.peer_minimum_version →
      Event.networkStore ∈ register_channel s env ∧
      startedCodes (register_channel s env) = [env.storeCode]) := by
  have hnl2 : env.version.nonce ∉ env.pendingNonces := by simpa using hnl
  constructor
  · intro hv
    have hT : register_channel s env =
        [Event.channelStart, Event.attachHandshake,
         Event.pendExistsQuery env.version.nonce, Event.logDebug,
         Event.channelStop ErrorCode.accept_failed,
         Event.startedCb ErrorCode.accept_failed] := by
      simp [register_channel, hrun, hin, handle_pend, isError,
        handle_channel_start, handle_handshake, hhs, handle_is_pending,
        hnl2, hv, handle_start]
    constructor <;> simp [hT, startedCodes]
  · intro hv
    have hT : register_channel s env =
        [Event.channelStart, Event.attachHandshake,
         Event.pendExistsQuery env.version.nonce, Event.networkStore] ++
          handle_start env.storeCode := by
      simp [register_channel, hrun, hin, handle_pend, isError,
        handle_channel_start, handle_handshake, hhs, handle_is_pending,
        hnl2, hv]
    constructor
    · simp [hT]
    · rw [hT, startedCodes_append, startedCodes_handle_start]
      simp [startedCodes]

theorem C7_minimum_version_gate_witness :
    inboundSession.incoming = true ∧ inboundSession.stopped = false ∧
    cleanEnv.handshakeCode = ErrorCode.success ∧
    cleanEnv.pendingNonces.contains cleanEnv.version.nonce = false ∧
    ((cleanEnv.version.value < inboundSession.peer_minimum_version →
      startedCodes (register_channel inboundSession cleanEnv) =
        [ErrorCode.accept_failed] ∧
      Event.networkStore ∉ register_channel inboundSession cleanEnv) ∧
    (¬ cleanEnv.version.value < inboundSession.peer_minimum_version →
      Event.networkStore ∈ register_channel inboundSession cleanEnv ∧
      startedCodes (register_channel inboundSession cleanEnv) =
        [cleanEnv.storeCode])) :=
  ⟨rfl, rfl, rfl, rfl,
    C7_minimum_version_gate inboundSession cleanEnv rfl rfl rfl rfl⟩

lemma mem_traceInvocations (w : message_type → List Nat)
    (t : List HubEvent) (e : HubEvent) (x : message_type × Nat × ErrorCode)
    (he : e ∈ t) (hx : x ∈ relayInvocations w e) :
    x ∈ traceInvocations w t := by
  induction t with
  | nil => cases he
  | cons a r ih =>
      rw [List.mem_cons] at he
      rcases he with rfl | he
      · simp only [traceInvocations]
        exact List.mem_append_left _ hx
      · simp only [traceInvocations]
        exact List.mem_append_right _ (ih he)

/-- C9: `message_subscriber::broadcast(c)` relays `(c, _)` to the
subscriber of each of the 21 kinds, hence every waiter outstanding on any
kind at broadcast time is invoked with code `c`; construction creates one
subscriber per kind and `start`/`stop` fan out to every one of them. -/
theorem C9_broadcast_reaches_every_kind (ec : ErrorCode)
    (w : message_type → List Nat) (k : message_type) (id : Nat)
    (hk : realKind k = true) (hw : id ∈ w k) :
    HubEvent.hubRelay k ec ∈ message_subscriber.broadcast ec ∧
    (message_subscriber.broadcast ec).length = 21 ∧
    (k, id, ec) ∈ traceInvocations w (message_subscriber.broadcast ec) ∧
    HubEvent.mkSub k ∈ message_subscriber.construct ∧
    HubEvent.subStart k ∈ message_subscriber.start ∧
    HubEvent.subStop k ∈ message_subscriber.stop := by
  have hmem : HubEvent.hubRelay k ec ∈ message_subscriber.broadcast ec := by
    cases k <;> simp_all [realKind, message_subscriber.broadcast]
  refine ⟨hmem, rfl, ?_, ?_, ?_, ?_⟩
  · refine mem_traceInvocations w _ (HubEvent.hubRelay k ec) (k, id, ec)
      hmem ?_
    simp only [relayInvocations, List.mem_map]
    exact ⟨id, hw, rfl⟩
  · cases k <;> simp_all [realKind, message_subscriber.construct]
  · cases k <;> simp_all [realKind, message_subscriber.start]
  · cases k <;> simp_all [realKind, message_subscriber.stop]

theorem C9_broadcast_reaches_every_kind_witness :
    realKind message_type.ping = true ∧
    5 ∈ oneWaiter message_type.ping ∧
    (HubEvent.hubRelay message_type.ping ErrorCode.service_stopped ∈
        message_subscriber.broadcast ErrorCode.service_stopped ∧
    (message_subscriber.broadcast ErrorCode.service_stopped).length = 21 ∧
    (message_type.ping, 5, ErrorCode.service_stopped) ∈
      traceInvocations oneWaiter
        (message_subscriber.broadcast ErrorCode.service_stopped) ∧
    HubEvent.mkSub message_type.ping ∈ message_subscriber.construct ∧
    HubEvent.subStart message_type.ping ∈ message_subscriber.start ∧
    HubEvent.subStop message_type.ping ∈ message_subscriber.stop) :=
  ⟨rfl, by decide,
    C9_broadcast_reaches_every_kind ErrorCode.service_stopped oneWaiter
      message_type.ping 5 rfl (by decide)⟩

/-- C3: a channel registered on an outbound running session is unpended —
its nonce reset to 0 and its pending-table removal initiated — before
`started_cb` is signaled, whether the shared sequence succeeded or failed;
and there is an interval of the run containing the whole pending-table
residence of the channel outside of which the channel's nonce is 0. -/
theorem C3_outbound_unpend_before_signal (s : Session) (env : RegEnv)
    (hout : s.incoming = false) (hrun : s.stopped = false) :
    ∃ p c,
      register_channel s env =
        Event.setNotify s.notify :: Event.setNonce env.randomNonce ::
          Event.pendStore ::
            (p ++ Event.setNonce 0 :: Event.pendRemove :: handle_start c) ∧
      p.all midEvent = true ∧
      startedCodes (register_channel s env) = [c] ∧
      (∃ t1 t2,
        (∀ i, inPendAt (register_channel s env) i = true →
          t1 ≤ i ∧ i ≤ t2) ∧
        (∀ i, i < t1 ∨ t2 < i → nonceAt (register_channel s env) i = 0)) := by
  obtain ⟨p, c, h1, h2⟩ := handle_pend_shape s env env.pendStoreCode
    (fun c => do_unpend c handle_start)
  have hT : register_channel s env =
      Event.setNotify s.notify :: Event.setNonce env.randomNonce ::
        Event.pendStore ::
          (p ++ Event.setNonce 0 :: Event.pendRemove :: handle_start c) := by
    have h3 : register_channel s env =
        Event.setNotify s.notify :: Event.setNonce env.randomNonce ::
          Event.pendStore :: (p ++ do_unpend c handle_start) := by
      rw [register_channel, if_neg (by simp [hrun]), if_neg (by simp [hout]),
        h1]
    rw [h3, do_unpend]
  have hT2 : register_channel s env =
      (Event.setNotify s.notify :: Event.setNonce env.randomNonce ::
        Event.pendStore :: (p ++ [Event.setNonce 0, Event.pendRemove])) ++
        handle_start c := by
    rw [hT]
    simp
  have hlen : (Event.setNotify s.notify :: Event.setNonce env.randomNonce ::
      Event.pendStore ::
        (p ++ [Event.setNonce 0, Event.pendRemove])).length =
      p.length + 5 := by
    simp
  have hpN : p.all noNonceEvent = true := all_imp mid_noNonce p h2
  have hpP : p.all noPendEvent = true := all_imp mid_noPend p h2
  have hHN := handle_start_all_noNonce c
  have hHP := handle_start_all_noPend c
  refine ⟨p, c, hT, h2, ?_, ?_⟩
  · have hsplit : Event.setNotify s.notify :: Event.setNonce env.randomNonce ::
        Event.pendStore ::
          (p ++ Event.setNonce 0 :: Event.pendRemove :: handle_start c) =
        ([Event.setNotify s.notify, Event.setNonce env.randomNonce,
          Event.pendStore] ++ p) ++
          ([Event.setNonce 0, Event.pendRemove] ++ handle_start c) := by
      simp
    rw [hT, hsplit, startedCodes_append, startedCodes_append,
      startedCodes_append, startedCodes_of_all_mid p h2,
      startedCodes_handle_start]
    simp [startedCodes]
  · refine ⟨2, p.length + 5, ?_, ?_⟩
    · intro i hi
      constructor
      · by_contra hlt
        push_neg at hlt
        interval_cases i
        · rw [hT] at hi
          simp [inPendAt] at hi
        · rw [hT] at hi
          simp [inPendAt, pendStep] at hi
      · by_contra hgt
        push_neg at hgt
        have hfalse : inPendAt (register_channel s env) i = false := by
          rw [hT2]
          simp only [inPendAt]
          rw [List.take_append_eq_append_take,
            List.take_of_length_le (by rw [hlen]; omega), List.foldl_append]
          have hC : (Event.setNotify s.notify ::
              Event.setNonce env.randomNonce :: Event.pendStore ::
                (p ++ [Event.setNonce 0,
                  Event.pendRemove])).foldl pendStep false = false := by
            simp only [List.foldl_cons, List.foldl_append]
            rw [show pendStep (pendStep (pendStep false
                (Event.setNotify s.notify)) (Event.setNonce env.randomNonce))
                Event.pendStore = true from rfl]
            rw [foldl_pendStep_const p true hpP]
            rfl
          rw [hC, foldl_pendStep_const _ false (all_take _ _ hHP)]
        rw [hfalse] at hi
        cases hi
    · intro i hi
      rcases hi with hi | hi
      · interval_cases i
        · rw [hT]
          simp [nonceAt]
        · rw [hT]
          simp [nonceAt, nonceStep]
      · rw [hT2]
        simp only [nonceAt]
        rw [List.take_append_eq_append_take,
          List.take_of_length_le (by rw [hlen]; omega), List.foldl_append]
        have hC0 : (Event.setNotify s.notify ::
            Event.setNonce env.randomNonce :: Event.pendStore ::
              (p ++ [Event.setNonce 0,
                Event.pendRemove])).foldl nonceStep 0 = 0 := by
          simp only [List.foldl_cons, List.foldl_append]
          rw [show nonceStep (nonceStep (nonceStep 0
              (Event.setNotify s.notify)) (Event.setNonce env.randomNonce))
              Event.pendStore = env.randomNonce from rfl]
          rw [foldl_nonceStep_const p env.randomNonce hpN]
          rfl
        rw [hC0, foldl_nonceStep_const _ 0 (all_take _ _ hHN)]

theorem C3_outbound_unpend_before_signal_witness :
    outboundSession.incoming = false ∧ outboundSession.stopped = false ∧
    (∃ p c,
      register_channel outboundSession cleanEnv =
        Event.setNotify outboundSession.notify ::
          Event.setNonce cleanEnv.randomNonce ::
          Event.pendStore ::
            (p ++ Event.setNonce 0 :: Event.pendRemove :: handle_start c) ∧
      p.all midEvent = true ∧
      startedCodes (register_channel outboundSession cleanEnv) = [c] ∧
      (∃ t1 t2,
        (∀ i, inPendAt (register_channel outboundSession cleanEnv) i = true →
          t1 ≤ i ∧ i ≤ t2) ∧
        (∀ i, i < t1 ∨ t2 < i →
          nonceAt (register_channel outboundSession cleanEnv) i = 0))) :=
  ⟨rfl, rfl,
    C3_outbound_unpend_before_signal outboundSession cleanEnv rfl rfl⟩
